import Mathlib

/-!
Shallow embedding of the real-time duel/tournament coordination engine of
`backend/src/index.ts` (socket.io handlers, in-memory room and hall
registries, ELO rating helper), together with proofs of the specification
claims about it.

Conventions of the embedding:
* TypeScript objects become Lean structures; optional fields become `Option`.
* The socket handlers become pure functions from the looked-up room state
  (`Option DuelRoom`, the result of `activeDuels.get`) to the new room state
  plus an ordered list of observable effects (socket emissions, tagged with
  their audience, and database writes).
* External collaborators (the problem fetch, the prisma rating lookups, the
  ELO function inside `problemSolved`, clock values, socket liveness) are
  passed in as explicit oracle parameters.
* JavaScript string truthiness (`!room.winner`) is modelled exactly: both an
  unset winner and the empty string are falsy.
-/

/-- `type CompetitorRole = "competitor1" | "competitor2"` (index.ts line 95). -/
inductive CompetitorRole
  | competitor1
  | competitor2
  deriving DecidableEq, Repr

/-- `type UserRole = CompetitorRole | "spectator"` (index.ts line 96). -/
inductive UserRole
  | comp (r : CompetitorRole)
  | spectator
  deriving DecidableEq, Repr

/-- `interface TsTestCase` (index.ts lines 39-42). -/
structure TsTestCase where
  stdin : String
  expected : String
  deriving DecidableEq, Repr

/-- `interface TsCodeSnippet` (index.ts lines 43-47). -/
structure TsCodeSnippet where
  lang : String
  langSlug : String
  code : String
  deriving DecidableEq, Repr

/-- The `platform` literal union of `TsProblem` (index.ts line 55). -/
inductive Platform
  | leetcode
  | codeforces
  | internal
  deriving DecidableEq, Repr

/-- `interface TsProblem` (index.ts lines 48-56). -/
structure TsProblem where
  id : String
  title : String
  description : String
  tests : List TsTestCase
  codeSnippets : Option (List TsCodeSnippet)
  metaData : Option String
  platform : Platform
  deriving DecidableEq, Repr

/-- `interface DuelCompetitor` (index.ts lines 97-105). -/
structure DuelCompetitor where
  socketId : String
  userId : String
  username : String
  code : String
  language : String
  solvedProblem : Bool
  submissionTime : Option Int
  deriving DecidableEq, Repr

/-- The `status` literal union of `DuelRoom` (index.ts line 111). -/
inductive DuelStatus
  | waiting
  | active
  | finished
  deriving DecidableEq, Repr

/-- `interface DuelRoom` (index.ts lines 106-115).  The
`competitors : Partial<Record<CompetitorRole, DuelCompetitor>>` map is
modelled as the two optional slots; the spectator `Set<string>` as a list of
socket ids (duplicate-free by `Set` semantics; insertion handled below).
`winner?: string | null` flattens `undefined` and `null` into `none`. -/
structure DuelRoom where
  duelId : String
  competitor1 : Option DuelCompetitor
  competitor2 : Option DuelCompetitor
  spectators : List String
  problem : Option TsProblem
  status : DuelStatus
  winner : Option String
  startTime : Option Int
  tournamentId : Option String
  deriving DecidableEq, Repr

/-- `room.competitors[role]`. -/
def DuelRoom.slot (room : DuelRoom) (r : CompetitorRole) : Option DuelCompetitor :=
  match r with
  | .competitor1 => room.competitor1
  | .competitor2 => room.competitor2

/-- `room.competitors[role] = c` (assignment to one slot). -/
def DuelRoom.setSlot (room : DuelRoom) (r : CompetitorRole) (c : Option DuelCompetitor) : DuelRoom :=
  match r with
  | .competitor1 => { room with competitor1 := c }
  | .competitor2 => { room with competitor2 := c }

/-- The role other than `r`. -/
def CompetitorRole.other : CompetitorRole → CompetitorRole
  | .competitor1 => .competitor2
  | .competitor2 => .competitor1

/-- JavaScript truthiness of `room.winner` (`!room.winner` in the
`problemSolved` handler): `undefined`, `null` and `""` are all falsy. -/
def winnerFalsy : Option String → Bool
  | none => true
  | some s => s == ""

/-- `interface HallParticipant` (index.ts lines 117-122). -/
structure HallParticipant where
  socketId : String
  userId : String
  username : String
  rating : Int
  deriving DecidableEq, Repr

/-- `interface TournamentHall` (index.ts lines 123-127); the
`Map<string, HallParticipant>` keyed by user id is a list of key/value
pairs in insertion order. -/
structure TournamentHall where
  tournamentId : String
  organizerId : String
  participants : List (String × HallParticipant)
  deriving DecidableEq, Repr

/-- Prisma `enum TournamentStatus` (schema.prisma). -/
inductive TournamentStatus
  | PENDING
  | ACTIVE
  | COMPLETED
  | CANCELLED
  deriving DecidableEq, Repr

/-- Prisma `enum PairingSystem` (schema.prisma). -/
inductive PairingSystem
  | RANDOM
  | SWISS
  deriving DecidableEq, Repr

/-- The fields of the persisted `Tournament` record that the socket handlers
consult (prisma model `Tournament`). -/
structure TournamentDb where
  organizerId : String
  status : TournamentStatus
  pairingSystem : PairingSystem
  problemSetType : String
  curatedProblemIds : List String
  deriving DecidableEq, Repr

/-- Who an emission is addressed to: `socket.emit` → `toCaller`,
`socket.to(duelId).emit` → `toOthers`, `io.to(roomId).emit` → `toRoom`,
`io.sockets.sockets.get(sid)?.emit` → `toSocket sid`; `db` marks a prisma
write. -/
inductive Audience
  | toCaller
  | toOthers
  | toRoom
  | toSocket (sid : String)
  | db
  deriving DecidableEq, Repr

/-- The per-competitor snapshot sent in the `duelState` emission
(index.ts lines 1111-1143). -/
structure CompetitorState where
  userId : String
  username : String
  role : CompetitorRole
  code : String
  language : String
  solvedProblem : Bool
  submissionTime : Option Int
  deriving DecidableEq, Repr

/-- Observable effects of the handlers: socket event emissions and database
writes, in program order. -/
inductive Eff
  | assignedRole (duelId : String) (role : UserRole) (userId username : String)
  | duelState (competitors : List CompetitorState) (problem : Option TsProblem)
      (status : DuelStatus)
  | userJoined (userId username : String) (role : UserRole)
  | duelStatusUpdate (status : DuelStatus) (startTime : Option Int)
      (winner : Option String)
  | duelProblemAssigned (problem : TsProblem)
  | duelError (message : String)
  | competitorSolved (userId : String) (role : CompetitorRole) (submissionTime : Int)
  | duelEnded (winnerId : Option String) (status : DuelStatus)
      (forfeitedBy : Option String)
  | competitorCodeUpdated (userId : String) (role : CompetitorRole) (code : String)
  | competitorLanguageUpdated (userId : String) (role : CompetitorRole)
      (language : String)
  | userLeft (userId username : String) (role : UserRole)
  | updateUserRating (userId : String) (newRating : Int)
  | createDuelMatch (duelId problemTitle : String) (problemPlatform : Platform)
      (playerOneId playerTwoId : String) (playerOneScore playerTwoScore : Rat)
      (oldRating1 newRating1 oldRating2 newRating2 : Int)
  | ratingsUpdated (userId1 : String) (oldRating1 newRating1 : Int)
      (userId2 : String) (oldRating2 newRating2 : Int)
  | updateTournamentStatus (status : TournamentStatus)
  | tournamentStatusUpdate (status : TournamentStatus)
  | tournamentMessage (message : String)
  | duelInvitation (duelId opponentUsername problemSetType : String)
      (curatedProblemIds : List String)
  | newTournamentDuel (duelId p1UserId p1Username p2UserId p2Username : String)
  | hallActionSuccess (message : String)
  | hallError (message : String)
  deriving DecidableEq, Repr

/-- An effect list. -/
abbrev Effs := List (Audience × Eff)

/-!
## The `problemSolved` handler (index.ts lines 1274-1379)

The prisma rating lookups are the oracle `dbRating` (`none` = user row
missing, or the lookup/update transaction threw — in either case the code
skips the rating block).  The ELO function is passed in as `elo`; the real
one is `calculateElo` below.
-/

/-- The early-return guard of `problemSolved` (index.ts lines 1284-1292):
the event is processed only when the room is `active`, the named slot is
occupied, and the slot's stored user id equals the caller's. -/
def solvedPre (room : DuelRoom) (uid : String) (role : CompetitorRole) : Prop :=
  room.status = .active ∧ ∃ c, room.slot role = some c ∧ c.userId = uid

instance (room : DuelRoom) (uid : String) (role : CompetitorRole) :
    Decidable (solvedPre room uid role) :=
  decidable_of_iff
    (room.status = .active ∧ (room.slot role).map DuelCompetitor.userId = some uid)
    (by simp [solvedPre, Option.map_eq_some'])

/-- `problemSolved` (index.ts lines 1274-1379). -/
def problemSolved (elo : Int → Int → Rat → Int × Int) (dbRating : String → Option Int)
    (roomIn : Option DuelRoom) (uid : String) (role : CompetitorRole) (t : Int) :
    Option DuelRoom × Effs :=
  match roomIn with
  | none => (none, [])
  | some room =>
    if solvedPre room uid role then
      -- mark the competitor solved and broadcast it
      let room1 := room.setSlot role ((room.slot role).map fun c =>
        { c with solvedProblem := true, submissionTime := some t })
      let evs : Effs := [(.toRoom, .competitorSolved uid role t)]
      if winnerFalsy room1.winner then
        -- first solver wins
        let room2 := { room1 with winner := some uid, status := .finished }
        let evs := evs ++ [(.toRoom, .duelEnded (some uid) .finished none)]
        match room2.competitor1, room2.competitor2, room2.problem with
        | some c1, some c2, some prob =>
          match dbRating c1.userId, dbRating c2.userId with
          | some r1, some r2 =>
            let score1 : Rat :=
              if room2.winner = some c1.userId then 1
              else if room2.winner = some c2.userId then 0
              else 1/2
            let (newRating1, newRating2) := elo r1 r2 score1
            (some room2, evs ++
              [(.db, .updateUserRating c1.userId newRating1),
               (.db, .updateUserRating c2.userId newRating2),
               (.db, .createDuelMatch room2.duelId prob.title prob.platform
                  c1.userId c2.userId score1 (1 - score1) r1 newRating1 r2 newRating2),
               (.toRoom, .ratingsUpdated c1.userId r1 newRating1 c2.userId r2 newRating2)])
          | _, _ => (some room2, evs)
        | _, _, _ => (some room2, evs)
      else (some room1, evs)
    else (some room, [])

/-!
## The `joinDuel` handler (index.ts lines 1039-1272)

The identity-resolution prelude (lines 1000-1037) only computes the
effective user id / username and the socket's room membership; the handler
proper is modelled from the point where those are known.  The asynchronous
problem retrieval (tournament-curated, random Codeforces, or random
LeetCode fallback, lines 1195-1241) is abstracted into the `FetchOutcome`
oracle: `ok p` = some fetch produced `p`, `noneAvailable` = every source
came back empty (`problemToAssign` stayed `null`), `threw` = the `try`
block threw.
-/

/-- Outcome of the awaited problem retrieval during activation. -/
inductive FetchOutcome
  | ok (p : TsProblem)
  | noneAvailable
  | threw
  deriving DecidableEq, Repr

/-- The room created on first join to an unknown duel id
(index.ts lines 1040-1049). -/
def freshRoom (duelId : String) : DuelRoom :=
  { duelId := duelId, competitor1 := none, competitor2 := none, spectators := [],
    problem := none, status := .waiting, winner := none, startTime := none,
    tournamentId := none }

/-- `existingRole` computation (index.ts lines 1055-1058): `competitor1`
is checked first. -/
def findExistingRole (room : DuelRoom) (uid : String) : Option CompetitorRole :=
  if room.competitor1.any fun c => c.userId == uid then some .competitor1
  else if room.competitor2.any fun c => c.userId == uid then some .competitor2
  else none

/-- Role assignment (index.ts lines 1060-1094): rejoin re-binds the slot's
socket id and username; otherwise fill `competitor1`, else `competitor2`
(which sets `competitorJustAddedToMakeTwo`), else spectator.  Returns the
updated room, the assigned role, and `competitorJustAddedToMakeTwo` as set
so far. -/
def assignRole (room : DuelRoom) (sid uid uname initialCode initialLanguage : String) :
    DuelRoom × UserRole × Bool :=
  let fresh : DuelCompetitor :=
    { socketId := sid, userId := uid, username := uname, code := initialCode,
      language := initialLanguage, solvedProblem := false, submissionTime := none }
  match findExistingRole room uid with
  | some r =>
    (room.setSlot r ((room.slot r).map fun c =>
      { c with socketId := sid, username := uname }), .comp r, false)
  | none =>
    match room.competitor1 with
    | none => ({ room with competitor1 := some fresh }, .comp .competitor1, false)
    | some _ =>
      match room.competitor2 with
      | none => ({ room with competitor2 := some fresh }, .comp .competitor2, true)
      | some _ =>
        ({ room with spectators :=
            if sid ∈ room.spectators then room.spectators else sid :: room.spectators },
         .spectator, false)

/-- `competitorStatesForEmit` (index.ts lines 1111-1143). -/
def competitorStates (room : DuelRoom) : List CompetitorState :=
  (match room.competitor1 with
   | some c => [{ userId := c.userId, username := c.username, role := .competitor1,
                  code := c.code, language := c.language,
                  solvedProblem := c.solvedProblem, submissionTime := c.submissionTime }]
   | none => []) ++
  (match room.competitor2 with
   | some c => [{ userId := c.userId, username := c.username, role := .competitor2,
                  code := c.code, language := c.language,
                  solvedProblem := c.solvedProblem, submissionTime := c.submissionTime }]
   | none => [])

/-- Result of `joinDuel`: the room after the handler (the room always
exists afterwards), the assigned role, the effects in order, and whether
this call triggered the activation problem fetch. -/
structure JoinResult where
  room : DuelRoom
  role : UserRole
  effects : Effs
  fetchTriggered : Bool
  deriving DecidableEq, Repr

/-- `joinDuel` (index.ts lines 1039-1272). -/
def joinDuel (duelId : String) (roomIn : Option DuelRoom)
    (sid uid uname initialCode initialLanguage : String)
    (fetch : FetchOutcome) (now : Int) : JoinResult :=
  let room0 := roomIn.getD (freshRoom duelId)
  let a := assignRole room0 sid uid uname initialCode initialLanguage
  let room1 := a.1
  let role := a.2.1
  let ja0 := a.2.2
  -- lines 1096-1102: re-set the flag whenever both slots are now filled
  let justAdded := ja0 || (role != UserRole.spectator &&
    room1.competitor1.isSome && room1.competitor2.isSome)
  let evs0 : Effs :=
    [(.toCaller, .assignedRole duelId role uid uname),
     (.toCaller, .duelState (competitorStates room1) room1.problem room1.status)]
  let evs1 : Effs := evs0 ++
    (match role with
     | .comp r =>
       match room1.slot r with
       | some c => [(.toOthers, .userJoined c.userId c.username role)]
       | none => []
     | .spectator => [(.toRoom, .userJoined uid uname .spectator)])
  if room1.competitor1.isSome && room1.competitor2.isSome &&
      room1.status == .waiting && (justAdded || room1.problem.isNone) then
    let room2 := { room1 with status := .active, startTime := some now }
    let evs2 := evs1 ++ [(.toRoom, .duelStatusUpdate .active (some now) none)]
    match fetch with
    | .ok p =>
      { room := { room2 with problem := some p }, role := role,
        effects := evs2 ++ [(.toRoom, .duelProblemAssigned p)], fetchTriggered := true }
    | .noneAvailable =>
      { room := room2, role := role,
        effects := evs2 ++
          [(.toRoom, .duelError "Failed to assign a problem. No problems available.")],
        fetchTriggered := true }
    | .threw =>
      { room := room2, role := role,
        effects := evs2 ++
          [(.toRoom, .duelError "An error occurred while assigning problem.")],
        fetchTriggered := true }
  else
    match room1.problem with
    | some p =>
      { room := room1, role := role,
        effects := evs1 ++
          [(.toCaller, .duelProblemAssigned p),
           (.toCaller, .duelStatusUpdate room1.status room1.startTime room1.winner)],
        fetchTriggered := false }
    | none =>
      { room := room1, role := role, effects := evs1, fetchTriggered := false }

/-!
## The `codeUpdate` / `languageUpdate` handlers (index.ts lines 1380-1435)
-/

/-- The shared authorization condition of `codeUpdate` and `languageUpdate`
(index.ts lines 1390-1394 and 1418-1422): the stored competitor for the
named role must carry both the caller's socket id and the caller's user
id. -/
def updateAuthorized (room : DuelRoom) (sid uid : String) (role : CompetitorRole) : Bool :=
  match room.slot role with
  | some c => c.socketId == sid && c.userId == uid
  | none => false

/-- `codeUpdate` (index.ts lines 1380-1407). -/
def codeUpdate (roomIn : Option DuelRoom) (sid uid code : String) (role : CompetitorRole) :
    Option DuelRoom × Effs :=
  match roomIn with
  | none => (none, [])
  | some room =>
    if updateAuthorized room sid uid role then
      (some (room.setSlot role ((room.slot role).map fun c => { c with code := code })),
       [(.toRoom, .competitorCodeUpdated uid role code)])
    else (some room, [])

/-- `languageUpdate` (index.ts lines 1408-1435). -/
def languageUpdate (roomIn : Option DuelRoom) (sid uid language : String)
    (role : CompetitorRole) : Option DuelRoom × Effs :=
  match roomIn with
  | none => (none, [])
  | some room =>
    if updateAuthorized room sid uid role then
      (some (room.setSlot role ((room.slot role).map fun c => { c with language := language })),
       [(.toRoom, .competitorLanguageUpdated uid role language)])
    else (some room, [])

/-!
## The duel part of the `disconnect` handler (index.ts lines 1756-1833)
-/

/-- The `socket.data.authUser` record set during connection auth
(index.ts lines 953-957). -/
structure AuthUser where
  userId : String
  username : String
  rating : Int
  deriving DecidableEq, Repr

/-- The competitor-slot scan of the disconnect handler (index.ts lines
1767-1773): the first of `competitor1`, `competitor2` whose stored socket
id equals the disconnecting socket's. -/
def firstMatchRole (room : DuelRoom) (sid : String) : Option CompetitorRole :=
  if room.competitor1.any fun c => c.socketId == sid then some .competitor1
  else if room.competitor2.any fun c => c.socketId == sid then some .competitor2
  else none

/-- JavaScript `x || null` on an optional user id (index.ts lines
1783-1786): `undefined` and the empty string both collapse to `null`. -/
def jsOrNull : Option String → Option String
  | some s => if s == "" then none else some s
  | none => none

/-- Clearing the matched slot and the forfeit transition (index.ts lines
1774-1797): the slot is deleted; if the room was `active`, the other
slot's user id (or `null`) becomes the winner, the status becomes
`finished`, and `duelEnded` is broadcast with the forfeiter's id. -/
def forfeitStep (room : DuelRoom) (role : CompetitorRole) (c : DuelCompetitor) :
    DuelRoom × Effs :=
  let room1 := room.setSlot role none
  if room.status = .active then
    let w := jsOrNull ((room1.slot role.other).map DuelCompetitor.userId)
    ({ room1 with status := .finished, winner := w },
     [(.toRoom, .duelEnded w .finished (some c.userId))])
  else (room1, [])

/-- The duel-room part of the `disconnect` handler (index.ts lines
1756-1833).  Returns `none` when the room was deleted (zero competitors
and zero spectators after removal) or did not exist. -/
def duelDisconnect (roomIn : Option DuelRoom) (sid : String) (authUser : Option AuthUser) :
    Option DuelRoom × Effs :=
  match roomIn with
  | none => (none, [])
  | some room =>
    let step1 : DuelRoom × Effs × Option (String × String × UserRole) :=
      match firstMatchRole room sid with
      | some role =>
        match room.slot role with
        | some c =>
          let (r, e) := forfeitStep room role c
          (r, e, some (c.userId, c.username, UserRole.comp role))
        | none => (room, [], none)
      | none => (room, [], none)
    match step1 with
    | (room1, evs1, userWhoLeft) =>
      -- spectator phase (index.ts lines 1800-1817)
      let step2 : DuelRoom × Option (String × String × UserRole) :=
        if sid ∈ room1.spectators then
          let sUid := match authUser with
            | some a => a.userId
            | none => "spectator-" ++ sid
          let sName := match authUser with
            | some a => a.username
            | none => "Spectator"
          let uwl := match userWhoLeft with
            | some x => some x
            | none => some (sUid, sName, UserRole.spectator)
          ({ room1 with spectators := room1.spectators.erase sid }, uwl)
        else (room1, userWhoLeft)
      match step2 with
      | (room2, userWhoLeft2) =>
        let evs2 := match userWhoLeft2 with
          | some (u, n, r) => evs1 ++ [(.toRoom, .userLeft u n r)]
          | none => evs1
        if room2.competitor1 = none ∧ room2.competitor2 = none ∧ room2.spectators = [] then
          (none, evs2)
        else (some room2, evs2)

/-!
## The `startTournamentRound` handler (index.ts lines 1621-1726)

`Array.from(hall.participants.values()).sort(() => 0.5 - Math.random())`
is nondeterministic; the shuffled list is therefore a parameter (claims
relate it to the hall's participant list by permutation).  `Date.now()`
inside the generated duel id makes the id time-dependent, so the id maker
is the oracle `mkDuelId`.  `io.sockets.sockets.get` is the liveness oracle
`connected`.
-/

/-- The `while (availableParticipants.length >= 2)` pop-pop loop
(index.ts lines 1670-1686), expressed on the reversed list: `pop()`
removes from the end, so the pairs in order are (last, second-last),
(third-last, fourth-last), …; the leftover participant, if any, is the
head of the shuffled list. -/
def popPairsRev {α : Type} : List α → List (α × α) × Option α
  | [] => ([], none)
  | [a] => ([], some a)
  | a :: b :: rest =>
    let (ps, l) := popPairsRev rest
    ((a, b) :: ps, l)

/-- The duel room pre-created for a tournament pair
(index.ts lines 1691-1697). -/
def tournamentDuelRoom (duelId tournamentId : String) : DuelRoom :=
  { duelId := duelId, competitor1 := none, competitor2 := none, spectators := [],
    problem := none, status := .waiting, winner := none, startTime := none,
    tournamentId := some tournamentId }

/-- `startTournamentRound` (index.ts lines 1621-1726).  Returns the list of
newly created duel rooms (in creation order, keyed by generated duel id)
and the effects. -/
def startTournamentRound (tournamentId : String) (hallIn : Option TournamentHall)
    (tournament : Option TournamentDb) (initiator : Option AuthUser)
    (shuffled : List HallParticipant) (connected : String → Bool)
    (mkDuelId : HallParticipant → HallParticipant → String) :
    List (String × DuelRoom) × Effs :=
  match hallIn, tournament, initiator with
  | some hall, some db, some auth =>
    if db.organizerId ≠ auth.userId then
      ([], [(.toCaller, .hallError "Organizer only.")])
    else if db.status ≠ .PENDING ∧ db.status ≠ .ACTIVE then
      ([], [(.toCaller,
        .hallError "Tournament not in PENDING or ACTIVE state to start a new round.")])
    else if hall.participants.length < 2 ∧ db.pairingSystem = .RANDOM then
      ([], [(.toCaller, .hallError "Need at least 2 participants.")])
    else
      let evs0 : Effs :=
        [(.db, .updateTournamentStatus .ACTIVE),
         (.toRoom, .tournamentStatusUpdate .ACTIVE)]
      match popPairsRev shuffled.reverse with
      | (pairs, leftover) =>
        let byeEvs : Effs := match leftover with
          | some u =>
            if connected u.socketId then
              [(.toSocket u.socketId, .tournamentMessage "You have a bye this round.")]
            else []
          | none => []
        let created : List (String × DuelRoom) := pairs.map fun pr =>
          (mkDuelId pr.1 pr.2, tournamentDuelRoom (mkDuelId pr.1 pr.2) tournamentId)
        let pairEvs : Effs := pairs.flatMap fun pr =>
          (if connected pr.1.socketId then
            [(.toSocket pr.1.socketId,
              .duelInvitation (mkDuelId pr.1 pr.2) pr.2.username
                db.problemSetType db.curatedProblemIds)]
           else []) ++
          (if connected pr.2.socketId then
            [(.toSocket pr.2.socketId,
              .duelInvitation (mkDuelId pr.1 pr.2) pr.1.username
                db.problemSetType db.curatedProblemIds)]
           else []) ++
          [(.toRoom, .newTournamentDuel (mkDuelId pr.1 pr.2)
              pr.1.userId pr.1.username pr.2.userId pr.2.username)]
        (created, evs0 ++ byeEvs ++ pairEvs ++
          [(.toCaller, .hallActionSuccess
            ("Round started with " ++ toString pairs.length ++ " duels."))])
  | _, _, _ => ([], [(.toCaller, .hallError "Invalid request.")])

/-!
## The ELO helper `calculateElo` (index.ts lines 270-281)

The TypeScript function computes with IEEE doubles; it is modelled over the
real numbers (every claim-relevant input — equal ratings, scores 0, 1/2, 1 —
is computed exactly by the doubles as well).  `Math.round` rounds half
toward positive infinity: `Math.round(x) = ⌊x + 1/2⌋`.
-/

/-- `const K_FACTOR = 32` (index.ts line 36). -/
def K_FACTOR : ℝ := 32

/-- JavaScript `Math.round`. -/
noncomputable def jsRound (x : ℝ) : ℤ := ⌊x + 1/2⌋

/-- `calculateElo` (index.ts lines 270-281). -/
noncomputable def calculateElo (ratingA ratingB scoreA : ℝ) : ℤ × ℤ :=
  let expectedA := 1 / (1 + (10 : ℝ) ^ ((ratingB - ratingA) / 400))
  let expectedB := 1 - expectedA
  let scoreB := 1 - scoreA
  (jsRound (ratingA + K_FACTOR * (scoreA - expectedA)),
   jsRound (ratingB + K_FACTOR * (scoreB - expectedB)))

/-!
## Shared predicates and sample data
-/

/-- State invariant of reachable duel rooms, used as a hypothesis where a
claim implicitly quantifies over reachable states: a winner exists only in
`finished` rooms (a solve and a forfeit both set `winner` and
`status = finished` in one step), a `waiting` room has no problem yet
(problems are assigned only at activation, after the status moved to
`active`), and occupied slots carry a non-empty user id (`joinDuel`
rejects callers without a truthy user id, index.ts lines 1009-1024). -/
def roomInv (room : DuelRoom) : Bool :=
  (room.status == .finished || room.winner == none) &&
  (!(room.status == .waiting) || room.problem == none) &&
  room.competitor1.all (fun c => !(c.userId == "")) &&
  room.competitor2.all (fun c => !(c.userId == ""))

/-- Effects that touch ratings or the match record: the two
`prisma.user.update` rating writes, `prisma.duelMatch.create`, and the
`ratingsUpdated` broadcast. -/
def isRatingEff : Audience × Eff → Bool := fun e =>
  match e.2 with
  | .updateUserRating _ _ => true
  | .createDuelMatch _ _ _ _ _ _ _ _ _ _ _ => true
  | .ratingsUpdated _ _ _ _ _ _ => true
  | _ => false

/-- Bye notifications (the `tournamentMessage` sent to the unpaired
participant). -/
def isByeEff : Audience × Eff → Bool := fun e =>
  match e.2 with
  | .tournamentMessage _ => true
  | _ => false

/-- Sample competitor in slot 1 (for concrete witnesses). -/
def compA : DuelCompetitor :=
  { socketId := "s1", userId := "u1", username := "Alice", code := "//a",
    language := "cpp", solvedProblem := false, submissionTime := none }

/-- Sample competitor in slot 2 (for concrete witnesses). -/
def compB : DuelCompetitor :=
  { socketId := "s2", userId := "u2", username := "Bob", code := "//b",
    language := "cpp", solvedProblem := false, submissionTime := none }

/-- Sample problem (for concrete witnesses). -/
def sampleProblem : TsProblem :=
  { id := "p1", title := "Two Sum", description := "d", tests := [],
    codeSnippets := none, metaData := none, platform := .leetcode }

/-- Sample active room with both slots filled, a problem, and no winner. -/
def activeRoom : DuelRoom :=
  { duelId := "d1", competitor1 := some compA, competitor2 := some compB,
    spectators := [], problem := some sampleProblem, status := .active,
    winner := none, startTime := some 100, tournamentId := none }

/-- A stub rating function for witnesses (the claims about the handlers
hold for every `elo` oracle). -/
def eloStub : Int → Int → Rat → Int × Int := fun a b _ => (a, b)

/-- A stub rating lookup for witnesses. -/
def dbStub : String → Option Int := fun _ => some 1200

/-!
## Claim theorems
-/

/-- **C9.** ELO symmetry at equal ratings: `calculateElo 1200 1200 1`
(K = 32) gives the winner +16 and the loser −16 — equal magnitudes, so the
two rating changes sum to zero — and for every integer rating `r`,
`calculateElo r r 0.5` returns both ratings unchanged. -/
theorem calculateElo_symmetry :
    calculateElo 1200 1200 1 = (1216, 1184) ∧
    ((calculateElo 1200 1200 1).1 - 1200) + ((calculateElo 1200 1200 1).2 - 1200) = 0 ∧
    ∀ r : ℤ, calculateElo (r : ℝ) (r : ℝ) (1/2) = (r, r) := by
  have h0 : ((1200 : ℝ) - 1200) / 400 = 0 := by norm_num
  have hElo : calculateElo 1200 1200 1 = (1216, 1184) := by
    simp only [calculateElo, h0, Real.rpow_zero, jsRound, K_FACTOR, Prod.mk.injEq]
    constructor
    · have : (1200 : ℝ) + 32 * (1 - 1 / (1 + 1)) + 1 / 2 = 1216 + 1 / 2 := by norm_num
      rw [this]
      rw [show (1216 : ℝ) + 1/2 = (1216 : ℤ) + 1/2 by norm_num, Int.floor_int_add]
      norm_num
    · have : (1200 : ℝ) + 32 * (1 - 1 - (1 - 1 / (1 + 1))) + 1 / 2 = 1184 + 1 / 2 := by
        norm_num
      rw [this]
      rw [show (1184 : ℝ) + 1/2 = (1184 : ℤ) + 1/2 by norm_num, Int.floor_int_add]
      norm_num
  refine ⟨hElo, by rw [hElo]; norm_num, fun r => ?_⟩
  have hr : ((r : ℝ) - r) / 400 = 0 := by simp
  simp only [calculateElo, hr, Real.rpow_zero, jsRound, K_FACTOR, Prod.mk.injEq]
  constructor
  · have : (r : ℝ) + 32 * (1 / 2 - 1 / (1 + 1)) + 1 / 2 = r + 1 / 2 := by norm_num
    rw [this, Int.floor_int_add]
    norm_num
  · have : (r : ℝ) + 32 * (1 - 1 / 2 - (1 - 1 / (1 + 1))) + 1 / 2 = r + 1 / 2 := by
      norm_num
    rw [this, Int.floor_int_add]
    norm_num

/-- **C6.** Update authorization: a `codeUpdate` / `languageUpdate` event
mutates the named slot's code (resp. language) and broadcasts it to the
room exactly when the stored competitor for that role has both the
caller's socket id and the caller's user id; otherwise the room is
unchanged and nothing is emitted. -/
theorem updateHandlers_authorization (room : DuelRoom) (sid uid v : String)
    (role : CompetitorRole) :
    (updateAuthorized room sid uid role = true →
      codeUpdate (some room) sid uid v role =
        (some (room.setSlot role ((room.slot role).map fun c => { c with code := v })),
         [(.toRoom, .competitorCodeUpdated uid role v)]) ∧
      languageUpdate (some room) sid uid v role =
        (some (room.setSlot role ((room.slot role).map fun c => { c with language := v })),
         [(.toRoom, .competitorLanguageUpdated uid role v)])) ∧
    (updateAuthorized room sid uid role = false →
      codeUpdate (some room) sid uid v role = (some room, []) ∧
      languageUpdate (some room) sid uid v role = (some room, [])) := by
  constructor <;> intro h <;> simp [codeUpdate, languageUpdate, h]

/-- Witness for C6: in `activeRoom`, the slot-1 owner's update is accepted,
and an update claiming slot 1 from socket `"s2"` is silently dropped. -/
theorem updateHandlers_authorization_witness :
    (updateAuthorized activeRoom "s1" "u1" .competitor1 = true ∧
      codeUpdate (some activeRoom) "s1" "u1" "x" .competitor1 =
        (some (activeRoom.setSlot .competitor1
            ((activeRoom.slot .competitor1).map fun c => { c with code := "x" })),
         [(.toRoom, .competitorCodeUpdated "u1" .competitor1 "x")])) ∧
    (updateAuthorized activeRoom "s2" "u1" .competitor1 = false ∧
      codeUpdate (some activeRoom) "s2" "u1" "x" .competitor1 = (some activeRoom, [])) := by
  refine ⟨⟨by decide, ?_⟩, ⟨by decide, ?_⟩⟩
  · exact ((updateHandlers_authorization activeRoom "s1" "u1" "x" .competitor1).1
      (by decide)).1
  · exact ((updateHandlers_authorization activeRoom "s2" "u1" "x" .competitor1).2
      (by decide)).1

/-- `setSlot` changes no field but the named slot (winner). -/
lemma setSlot_winner (room : DuelRoom) (r : CompetitorRole) (c : Option DuelCompetitor) :
    (room.setSlot r c).winner = room.winner := by
  cases r <;> rfl

/-- `setSlot` changes no field but the named slot (status). -/
lemma setSlot_status (room : DuelRoom) (r : CompetitorRole) (c : Option DuelCompetitor) :
    (room.setSlot r c).status = room.status := by
  cases r <;> rfl

/-- `setSlot` changes no field but the named slot (problem). -/
lemma setSlot_problem (room : DuelRoom) (r : CompetitorRole) (c : Option DuelCompetitor) :
    (room.setSlot r c).problem = room.problem := by
  cases r <;> rfl

/-- `setSlot` changes no field but the named slot (spectators). -/
lemma setSlot_spectators (room : DuelRoom) (r : CompetitorRole) (c : Option DuelCompetitor) :
    (room.setSlot r c).spectators = room.spectators := by
  cases r <;> rfl

/-- Reading back the slot just written. -/
lemma setSlot_slot_self (room : DuelRoom) (r : CompetitorRole) (c : Option DuelCompetitor) :
    (room.setSlot r c).slot r = c := by
  cases r <;> rfl

/-- Reading the other slot after a write. -/
lemma setSlot_slot_other (room : DuelRoom) (r : CompetitorRole) (c : Option DuelCompetitor) :
    (room.setSlot r c).slot r.other = room.slot r.other := by
  cases r <;> rfl

/-- In an invariant-satisfying room that is `active`, no winner is set. -/
lemma roomInv_active_winner {room : DuelRoom} (h : roomInv room = true)
    (ha : room.status = .active) : room.winner = none := by
  simp only [roomInv, ha, Bool.and_eq_true, Bool.or_eq_true, beq_iff_eq] at h
  rcases h with ⟨⟨⟨h1, _⟩, _⟩, _⟩
  rcases h1 with h1 | h1
  · cases h1
  · exact h1

/-- In an invariant-satisfying room that is `waiting`, no problem is
assigned yet. -/
lemma roomInv_waiting_problem {room : DuelRoom} (h : roomInv room = true)
    (hw : room.status = .waiting) : room.problem = none := by
  simp only [roomInv, hw, Bool.and_eq_true, Bool.or_eq_true, beq_iff_eq] at h
  rcases h with ⟨⟨⟨_, h2⟩, _⟩, _⟩
  simpa using h2

/-- **C1.** First solver wins: on a reachable (`roomInv`) room, a
`problemSolved` event whose preconditions hold (room `active`, slot
occupied by the caller's user id) — necessarily the first one, since an
`active` room has no winner — sets the winner to the caller, sets
`status = finished`, and broadcasts `duelEnded`; and once a (non-falsy)
winner is stored, any later `problemSolved` for that duel leaves the
winner unchanged. -/
theorem problemSolved_first_solver_wins (elo : Int → Int → Rat → Int × Int)
    (db : String → Option Int) (room : DuelRoom) (uid : String)
    (role : CompetitorRole) (t : Int) :
    (roomInv room = true → solvedPre room uid role →
      (∃ r', (problemSolved elo db (some room) uid role t).1 = some r' ∧
        r'.winner = some uid ∧ r'.status = .finished) ∧
      (Audience.toRoom, Eff.duelEnded (some uid) .finished none) ∈
        (problemSolved elo db (some room) uid role t).2) ∧
    (winnerFalsy room.winner = false →
      ∀ r', (problemSolved elo db (some room) uid role t).1 = some r' →
        r'.winner = room.winner) := by
  constructor
  · intro hinv hpre
    have hact : room.status = .active := hpre.1
    have hw : room.winner = none := roomInv_active_winner hinv hact
    have hw1 : winnerFalsy (room.setSlot role ((room.slot role).map fun c =>
        { c with solvedProblem := true, submissionTime := some t })).winner = true := by
      rw [setSlot_winner, hw]; rfl
    simp only [problemSolved, hpre, if_true, hw1]
    constructor
    · split
      · split <;> exact ⟨_, rfl, rfl, rfl⟩
      · exact ⟨_, rfl, rfl, rfl⟩
    · split
      · split <;> simp
      · simp
  · intro hwf r' heq
    by_cases hpre : solvedPre room uid role
    · have hw1 : winnerFalsy (room.setSlot role ((room.slot role).map fun c =>
          { c with solvedProblem := true, submissionTime := some t })).winner = false := by
        rw [setSlot_winner]; exact hwf
      simp only [problemSolved, hpre, if_true, hw1] at heq
      simp only [Bool.false_eq_true, if_false, Option.some.injEq] at heq
      rw [← heq, setSlot_winner]
    · simp only [problemSolved, hpre, if_false, Option.some.injEq] at heq
      rw [← heq]

/-- Sample finished room: `activeRoom` after `"u1"` solved first. -/
def finishedRoom : DuelRoom :=
  { activeRoom with status := .finished, winner := some "u1" }

/-- Witness for C1 at concrete inputs: the first solve in `activeRoom` by
`"u1"` wins, and in `finishedRoom` (winner already `"u1"`) a further
`problemSolved` leaves the winner unchanged. -/
theorem problemSolved_first_solver_wins_witness :
    (roomInv activeRoom = true ∧ solvedPre activeRoom "u1" .competitor1 ∧
      (∃ r', (problemSolved eloStub dbStub (some activeRoom) "u1" .competitor1 5).1 = some r' ∧
        r'.winner = some "u1" ∧ r'.status = .finished) ∧
      (Audience.toRoom, Eff.duelEnded (some "u1") .finished none) ∈
        (problemSolved eloStub dbStub (some activeRoom) "u1" .competitor1 5).2) ∧
    (winnerFalsy finishedRoom.winner = false ∧
      ∀ r', (problemSolved eloStub dbStub (some finishedRoom) "u2" .competitor2 9).1 = some r' →
        r'.winner = finishedRoom.winner) := by
  have h := problemSolved_first_solver_wins eloStub dbStub activeRoom "u1" .competitor1 5
  have h2 := problemSolved_first_solver_wins eloStub dbStub finishedRoom "u2" .competitor2 9
  have ha := h.1 (by decide) (by decide)
  exact ⟨⟨by decide, by decide, ha.1, ha.2⟩, ⟨by decide, h2.2 (by decide)⟩⟩

/-- First `problemSolved` call on `activeRoom` (for the C5 counterexample). -/
def c5first : Option DuelRoom × Effs :=
  problemSolved eloStub dbStub (some activeRoom) "u1" .competitor1 5

/-- Second `problemSolved` call on the resulting room, by the other
competitor (for the C5 counterexample). -/
def c5second : Option DuelRoom × Effs :=
  problemSolved eloStub dbStub c5first.1 "u2" .competitor2 9

/-- **C5 counterexample.** After the first `submitSolved` set the winner,
the room's status is `finished`, so the second `problemSolved` call for the
same duel fails the room-`active` precondition and returns early: it emits
nothing at all (in particular no `competitorSolved` broadcast) and does not
mark the caller's competitor as solved — refuting the claim that later
calls "still mark the caller's competitor as solved and broadcast the
competitor-solved event". -/
theorem problemSolved_second_call_counterexample :
    (c5first.1.map fun r => (r.winner, r.status)) = some (some "u1", .finished) ∧
    c5second.2 = [] ∧
    c5second.1 = c5first.1 ∧
    (c5first.1.map fun r => r.competitor2.map (·.solvedProblem)) = some (some false) := by
  decide

/-- **C5 (amended).** Once the winner is set by a first `submitSolved`, the
room status is `finished`, so every subsequent `problemSolved` event for
that duel fails the `active`-status precondition and is ignored entirely:
the room (winner included) is unchanged and nothing is broadcast. -/
theorem problemSolved_ignored_after_finish (elo : Int → Int → Rat → Int × Int)
    (db : String → Option Int) (room : DuelRoom) (uid : String)
    (role : CompetitorRole) (t : Int) :
    room.status ≠ .active →
    problemSolved elo db (some room) uid role t = (some room, []) := by
  intro h
  have hpre : ¬ solvedPre room uid role := fun hp => h hp.1
  simp [problemSolved, hpre]

/-- Witness for C5 (amended) at the concrete `finishedRoom`. -/
theorem problemSolved_ignored_after_finish_witness :
    finishedRoom.status ≠ DuelStatus.active ∧
    problemSolved eloStub dbStub (some finishedRoom) "u2" .competitor2 9 =
      (some finishedRoom, []) :=
  ⟨by decide,
   problemSolved_ignored_after_finish eloStub dbStub finishedRoom "u2" .competitor2 9
     (by decide)⟩

/-- **C2.** Forfeit on disconnect: in an `active` room, the disconnect of
the socket occupying a competitor slot clears that slot, finishes the
duel with the other slot's user as winner, and broadcasts `duelEnded`
carrying the forfeiter's user id; the disconnect of a pure spectator
socket only removes it from the spectator set and leaves slots, status and
winner unchanged. -/
theorem duelDisconnect_forfeit (room : DuelRoom) (sid : String)
    (authUser : Option AuthUser) :
    (∀ role c oc, room.status = .active → firstMatchRole room sid = some role →
      room.slot role = some c → room.slot role.other = some oc → oc.userId ≠ "" →
      ∃ r', (duelDisconnect (some room) sid authUser).1 = some r' ∧
        r'.slot role = none ∧ r'.status = .finished ∧ r'.winner = some oc.userId ∧
        (Audience.toRoom, Eff.duelEnded (some oc.userId) .finished (some c.userId)) ∈
          (duelDisconnect (some room) sid authUser).2) ∧
    (firstMatchRole room sid = none → sid ∈ room.spectators →
      (room.competitor1.isSome ∨ room.competitor2.isSome) →
      ∃ r', (duelDisconnect (some room) sid authUser).1 = some r' ∧
        r'.competitor1 = room.competitor1 ∧ r'.competitor2 = room.competitor2 ∧
        r'.status = room.status ∧ r'.winner = room.winner ∧
        r'.spectators = room.spectators.erase sid) := by
  constructor
  · intro role c oc hact hfm hc hoc hne
    have hne' : (oc.userId == "") = false := by simpa using hne
    cases role
    case competitor1 =>
      simp only [DuelRoom.slot, CompetitorRole.other] at hc hoc
      simp only [duelDisconnect, hfm, hc, forfeitStep, hact, CompetitorRole.other,
        DuelRoom.setSlot, DuelRoom.slot, jsOrNull, hne', if_true, hoc]
      by_cases hs : sid ∈ room.spectators <;>
        simp [hs, DuelRoom.slot, List.mem_append, hne]
    case competitor2 =>
      simp only [DuelRoom.slot, CompetitorRole.other] at hc hoc
      simp only [duelDisconnect, hfm, hc, forfeitStep, hact, CompetitorRole.other,
        DuelRoom.setSlot, DuelRoom.slot, jsOrNull, hne', if_true, hoc]
      by_cases hs : sid ∈ room.spectators <;>
        simp [hs, DuelRoom.slot, List.mem_append, hne]
  · intro hfm hspec hsome
    simp only [duelDisconnect, hfm, hspec, if_true]
    rcases hsome with h | h <;>
      [(rcases Option.isSome_iff_exists.mp h with ⟨c1, hc1⟩);
       (rcases Option.isSome_iff_exists.mp h with ⟨c2, hc2⟩)] <;>
      simp_all

/-- Sample room with a spectator socket `"s9"`. -/
def specRoom : DuelRoom := { activeRoom with spectators := ["s9"] }

/-- Witness for C2: in `activeRoom`, socket `"s2"` (competitor2)
disconnecting forfeits to `"u1"`; in `specRoom`, spectator socket `"s9"`
disconnecting only shrinks the spectator set. -/
theorem duelDisconnect_forfeit_witness :
    (activeRoom.status = .active ∧ firstMatchRole activeRoom "s2" = some .competitor2 ∧
      ∃ r', (duelDisconnect (some activeRoom) "s2" none).1 = some r' ∧
        r'.slot .competitor2 = none ∧ r'.status = .finished ∧
        r'.winner = some compA.userId ∧
        (Audience.toRoom, Eff.duelEnded (some compA.userId) .finished (some compB.userId)) ∈
          (duelDisconnect (some activeRoom) "s2" none).2) ∧
    (firstMatchRole specRoom "s9" = none ∧ "s9" ∈ specRoom.spectators ∧
      ∃ r', (duelDisconnect (some specRoom) "s9" none).1 = some r' ∧
        r'.competitor1 = specRoom.competitor1 ∧ r'.competitor2 = specRoom.competitor2 ∧
        r'.status = specRoom.status ∧ r'.winner = specRoom.winner ∧
        r'.spectators = specRoom.spectators.erase "s9") := by
  have h1 := (duelDisconnect_forfeit activeRoom "s2" none).1 .competitor2 compB compA
    (by decide) (by decide) (by decide) (by decide) (by decide)
  have h2 := (duelDisconnect_forfeit specRoom "s9" none).2 (by decide) (by decide)
    (Or.inl (by decide))
  exact ⟨⟨by decide, by decide, h1⟩, ⟨by decide, by decide, h2⟩⟩

/-- `setSlot` changes no field but the named slot (startTime). -/
lemma setSlot_startTime (room : DuelRoom) (r : CompetitorRole) (c : Option DuelCompetitor) :
    (room.setSlot r c).startTime = room.startTime := by
  cases r <;> rfl

/-- Role assignment only touches the slots and the spectator set: status,
winner, problem and startTime are untouched. -/
lemma assignRole_preserves (room : DuelRoom) (sid uid uname ic il : String) :
    ((assignRole room sid uid uname ic il).1).status = room.status ∧
    ((assignRole room sid uid uname ic il).1).winner = room.winner ∧
    ((assignRole room sid uid uname ic il).1).problem = room.problem ∧
    ((assignRole room sid uid uname ic il).1).startTime = room.startTime := by
  unfold assignRole
  split
  · rename_i r _
    exact ⟨setSlot_status _ _ _, setSlot_winner _ _ _, setSlot_problem _ _ _,
      setSlot_startTime _ _ _⟩
  · split
    · exact ⟨rfl, rfl, rfl, rfl⟩
    · split
      · exact ⟨rfl, rfl, rfl, rfl⟩
      · exact ⟨rfl, rfl, rfl, rfl⟩

/-- The role returned by `joinDuel` is the one computed by the assignment
phase. -/
lemma joinDuel_role (duelId : String) (roomIn : Option DuelRoom)
    (sid uid uname ic il : String) (fetch : FetchOutcome) (now : Int) :
    (joinDuel duelId roomIn sid uid uname ic il fetch now).role =
      (assignRole (roomIn.getD (freshRoom duelId)) sid uid uname ic il).2.1 := by
  simp only [joinDuel]
  repeat' split
  all_goals rfl

/-- The activation phase never touches the competitor slots: the room
returned by `joinDuel` holds the slots computed by the assignment phase. -/
lemma joinDuel_slots (duelId : String) (roomIn : Option DuelRoom)
    (sid uid uname ic il : String) (fetch : FetchOutcome) (now : Int) :
    (joinDuel duelId roomIn sid uid uname ic il fetch now).room.competitor1 =
      (assignRole (roomIn.getD (freshRoom duelId)) sid uid uname ic il).1.competitor1 ∧
    (joinDuel duelId roomIn sid uid uname ic il fetch now).room.competitor2 =
      (assignRole (roomIn.getD (freshRoom duelId)) sid uid uname ic il).1.competitor2 := by
  simp only [joinDuel]
  constructor <;> (repeat' split) <;> rfl

/-- **C3.** Single activation: on a reachable (`roomInv`) `waiting` room, a
join that leaves both competitor slots filled performs the
waiting-to-active transition — status `active`, `startTime` stamped, and
the problem fetch triggered; while a join into a room that is already
`active` or `finished` (status not `waiting`) never triggers the
transition or a problem fetch, and instead resends the existing problem
and status to the joiner. -/
theorem joinDuel_single_activation (duelId : String) (room : DuelRoom)
    (sid uid uname ic il : String) (fetch : FetchOutcome) (now : Int) :
    (roomInv room = true → room.status = .waiting →
      (joinDuel duelId (some room) sid uid uname ic il fetch now).room.competitor1.isSome →
      (joinDuel duelId (some room) sid uid uname ic il fetch now).room.competitor2.isSome →
      (joinDuel duelId (some room) sid uid uname ic il fetch now).room.status = .active ∧
      (joinDuel duelId (some room) sid uid uname ic il fetch now).fetchTriggered = true ∧
      (joinDuel duelId (some room) sid uid uname ic il fetch now).room.startTime = some now) ∧
    (room.status ≠ .waiting →
      (joinDuel duelId (some room) sid uid uname ic il fetch now).fetchTriggered = false ∧
      (joinDuel duelId (some room) sid uid uname ic il fetch now).room.status = room.status ∧
      (joinDuel duelId (some room) sid uid uname ic il fetch now).room.problem = room.problem ∧
      ∀ p, room.problem = some p →
        (Audience.toCaller, Eff.duelProblemAssigned p) ∈
          (joinDuel duelId (some room) sid uid uname ic il fetch now).effects ∧
        (Audience.toCaller, Eff.duelStatusUpdate room.status room.startTime room.winner) ∈
          (joinDuel duelId (some room) sid uid uname ic il fetch now).effects) := by
  have hp := assignRole_preserves room sid uid uname ic il
  constructor
  · intro hinv hwait h1 h2
    have hpr : room.problem = none := roomInv_waiting_problem hinv hwait
    obtain ⟨hs1, hs2⟩ := joinDuel_slots duelId (some room) sid uid uname ic il fetch now
    rw [hs1] at h1
    rw [hs2] at h2
    simp only [Option.getD_some] at h1 h2
    refine ⟨?_, ?_, ?_⟩ <;>
    · simp only [joinDuel, Option.getD_some]
      rcases fetch with p | _ | _ <;>
        simp [h1, h2, hp.1, hp.2.2.1, hwait, hpr]
  · intro hne
    have hb : ((assignRole room sid uid uname ic il).1.status == DuelStatus.waiting) = false := by
      rw [hp.1]; exact beq_eq_false_iff_ne.mpr hne
    rcases hroomp : room.problem with _ | p
    · have hq : (assignRole room sid uid uname ic il).1.problem = none := by
        rw [hp.2.2.1, hroomp]
      refine ⟨?_, ?_, ?_, ?_⟩
      · simp only [joinDuel, Option.getD_some]
        simp [hb, hq, hp.1, hne]
      · simp only [joinDuel, Option.getD_some]
        simp [hb, hq, hp.1, hne]
      · simp only [joinDuel, Option.getD_some]
        simp [hb, hq, hp.1, hne, hroomp]
      · intro p hp'
        simp at hp'
    · have hq : (assignRole room sid uid uname ic il).1.problem = some p := by
        rw [hp.2.2.1, hroomp]
      refine ⟨?_, ?_, ?_, ?_⟩
      · simp only [joinDuel, Option.getD_some]
        simp [hb, hq, hp.1, hne]
      · simp only [joinDuel, Option.getD_some]
        simp [hb, hq, hp.1, hne]
      · simp only [joinDuel, Option.getD_some]
        simp [hb, hq, hp.1, hne, hroomp]
      · intro p' hp'
        injection hp' with hpp
        subst hpp
        constructor <;>
        · simp only [joinDuel, Option.getD_some]
          simp [hb, hq, hp.1, hne, hp.2.1, hp.2.2.1, hp.2.2.2]

/-- Sample waiting room with only slot 1 occupied. -/
def waitingRoom : DuelRoom :=
  { duelId := "d1", competitor1 := some compA, competitor2 := none, spectators := [],
    problem := none, status := .waiting, winner := none, startTime := none,
    tournamentId := none }

/-- Witness for C3: `"u2"` joining `waitingRoom` fills both slots and
activates the room exactly then; `"u1"` rejoining `activeRoom` does not
re-trigger a fetch and gets the problem and status resent. -/
theorem joinDuel_single_activation_witness :
    (roomInv waitingRoom = true ∧ waitingRoom.status = .waiting ∧
      (joinDuel "d1" (some waitingRoom) "s2" "u2" "Bob" "//b" "cpp"
        (.ok sampleProblem) 100).room.competitor1.isSome ∧
      (joinDuel "d1" (some waitingRoom) "s2" "u2" "Bob" "//b" "cpp"
        (.ok sampleProblem) 100).room.competitor2.isSome ∧
      (joinDuel "d1" (some waitingRoom) "s2" "u2" "Bob" "//b" "cpp"
        (.ok sampleProblem) 100).room.status = .active ∧
      (joinDuel "d1" (some waitingRoom) "s2" "u2" "Bob" "//b" "cpp"
        (.ok sampleProblem) 100).fetchTriggered = true ∧
      (joinDuel "d1" (some waitingRoom) "s2" "u2" "Bob" "//b" "cpp"
        (.ok sampleProblem) 100).room.startTime = some 100) ∧
    (activeRoom.status ≠ .waiting ∧
      (joinDuel "d1" (some activeRoom) "s1b" "u1" "Alice" "//a" "cpp"
        FetchOutcome.threw 200).fetchTriggered = false ∧
      (joinDuel "d1" (some activeRoom) "s1b" "u1" "Alice" "//a" "cpp"
        FetchOutcome.threw 200).room.status = activeRoom.status ∧
      (joinDuel "d1" (some activeRoom) "s1b" "u1" "Alice" "//a" "cpp"
        FetchOutcome.threw 200).room.problem = activeRoom.problem ∧
      ∀ p, activeRoom.problem = some p →
        (Audience.toCaller, Eff.duelProblemAssigned p) ∈
          (joinDuel "d1" (some activeRoom) "s1b" "u1" "Alice" "//a" "cpp"
            FetchOutcome.threw 200).effects ∧
        (Audience.toCaller,
          Eff.duelStatusUpdate activeRoom.status activeRoom.startTime activeRoom.winner) ∈
          (joinDuel "d1" (some activeRoom) "s1b" "u1" "Alice" "//a" "cpp"
            FetchOutcome.threw 200).effects) := by
  have h1 := (joinDuel_single_activation "d1" waitingRoom "s2" "u2" "Bob" "//b" "cpp"
    (.ok sampleProblem) 100).1 (by decide) (by decide) (by decide) (by decide)
  have h2 := (joinDuel_single_activation "d1" activeRoom "s1b" "u1" "Alice" "//a" "cpp"
    FetchOutcome.threw 200).2 (by decide)
  exact ⟨⟨by decide, by decide, by decide, by decide, h1.1, h1.2.1, h1.2.2⟩,
    ⟨by decide, h2.1, h2.2.1, h2.2.2.1, h2.2.2.2⟩⟩

/-- First join of the C4 scenario: `"u1"` creates the room. -/
def c4join1 : JoinResult :=
  joinDuel "d1" none "s1" "u1" "Alice" "//a" "cpp" FetchOutcome.threw 1

/-- Second join of the C4 scenario: `"u2"` fills slot 2, the activation
problem fetch throws. -/
def c4join2 : JoinResult :=
  joinDuel "d1" (some c4join1.room) "s2" "u2" "Bob" "//b" "cpp" FetchOutcome.threw 2

/-- Third join of the C4 scenario: `"u1"` rejoins the active, problem-less
room; a problem would now be available. -/
def c4join3 : JoinResult :=
  joinDuel "d1" (some c4join2.room) "s1b" "u1" "Alice" "//a" "cpp"
    (FetchOutcome.ok sampleProblem) 3

/-- **C4 counterexample.** After a failed activation fetch the room is
`active` with no problem and the error was broadcast (the claim's first
half) — but the subsequent `joinDuel` by participant `"u1"` into that room
does *not* re-trigger the problem fetch (activation requires `waiting`
status), refuting the claimed retry-by-rejoining mechanism. -/
theorem joinDuel_no_retry_counterexample :
    c4join2.room.status = .active ∧ c4join2.room.problem = none ∧
    (Audience.toRoom, Eff.duelError "An error occurred while assigning problem.") ∈
      c4join2.effects ∧
    c4join3.fetchTriggered = false ∧ c4join3.room.problem = none := by
  decide

/-- **C4 (amended).** If the problem retrieval during activation fails, a
room-level error is broadcast and the room stays `active` with no problem
assigned; but a subsequent `joinDuel` into the now-`active` room does
*not* re-trigger the problem fetch — activation (the only fetch site)
requires `waiting` status, so the room keeps no problem until it empties
and is recreated. -/
theorem joinDuel_failed_fetch_no_retry (duelId : String) (room : DuelRoom)
    (sid uid uname ic il : String) (fetch : FetchOutcome) (now : Int) :
    (roomInv room = true → room.status = .waiting →
      (joinDuel duelId (some room) sid uid uname ic il fetch now).room.competitor1.isSome →
      (joinDuel duelId (some room) sid uid uname ic il fetch now).room.competitor2.isSome →
      (fetch = .noneAvailable ∨ fetch = .threw) →
      (joinDuel duelId (some room) sid uid uname ic il fetch now).room.status = .active ∧
      (joinDuel duelId (some room) sid uid uname ic il fetch now).room.problem = none ∧
      ∃ msg, (Audience.toRoom, Eff.duelError msg) ∈
        (joinDuel duelId (some room) sid uid uname ic il fetch now).effects) ∧
    (room.status = .active →
      (joinDuel duelId (some room) sid uid uname ic il fetch now).fetchTriggered = false ∧
      (joinDuel duelId (some room) sid uid uname ic il fetch now).room.problem =
        room.problem) := by
  have hp := assignRole_preserves room sid uid uname ic il
  constructor
  · intro hinv hwait h1 h2 hfail
    have hpr : room.problem = none := roomInv_waiting_problem hinv hwait
    obtain ⟨hs1, hs2⟩ := joinDuel_slots duelId (some room) sid uid uname ic il fetch now
    rw [hs1] at h1
    rw [hs2] at h2
    simp only [Option.getD_some] at h1 h2
    refine ⟨?_, ?_, ?_⟩ <;>
    · simp only [joinDuel, Option.getD_some]
      rcases hfail with hf | hf <;> subst hf <;>
        simp [h1, h2, hp.1, hp.2.2.1, hwait, hpr]
  · intro hact
    have hb : ((assignRole room sid uid uname ic il).1.status == DuelStatus.waiting) = false := by
      rw [hp.1, hact]; rfl
    constructor <;>
    · simp only [joinDuel, Option.getD_some]
      rcases hq : (assignRole room sid uid uname ic il).1.problem with _ | p <;>
        simp [hb, hq, ← hp.2.2.1]

/-- Witness for C4 (amended), on the concrete C4 scenario. -/
theorem joinDuel_failed_fetch_no_retry_witness :
    (roomInv c4join1.room = true ∧ c4join1.room.status = .waiting ∧
      c4join2.room.status = .active ∧ c4join2.room.problem = none ∧
      ∃ msg, (Audience.toRoom, Eff.duelError msg) ∈ c4join2.effects) ∧
    (c4join2.room.status = .active ∧ c4join3.fetchTriggered = false ∧
      c4join3.room.problem = c4join2.room.problem) := by
  have h1 := (joinDuel_failed_fetch_no_retry "d1" c4join1.room "s2" "u2" "Bob" "//b"
    "cpp" FetchOutcome.threw 2).1 (by decide) (by decide) (by decide) (by decide)
    (Or.inr rfl)
  have h2 := (joinDuel_failed_fetch_no_retry "d1" c4join2.room "s1b" "u1" "Alice" "//a"
    "cpp" (FetchOutcome.ok sampleProblem) 3).2 (by decide)
  exact ⟨⟨by decide, by decide, h1.1, h1.2.1, h1.2.2⟩, ⟨by decide, h2.1, h2.2⟩⟩

/-- Marking a slot solved (a `setSlot` with a mapped update of the same
slot) does not change which slots are occupied. -/
lemma setSlot_map_isSome (room : DuelRoom) (r : CompetitorRole)
    (f : DuelCompetitor → DuelCompetitor) :
    ((room.setSlot r ((room.slot r).map f)).competitor1.isSome =
      room.competitor1.isSome) ∧
    ((room.setSlot r ((room.slot r).map f)).competitor2.isSome =
      room.competitor2.isSome) := by
  cases r <;> simp [DuelRoom.setSlot, DuelRoom.slot]

/-- **C10.** Forfeit leaves ratings untouched: the disconnect handler (and
likewise `joinDuel`, `codeUpdate`, `languageUpdate`) performs no rating
update, no match-record creation and no `ratingsUpdated` broadcast; such
effects can only come from the solve path of `problemSolved`, and there
only when the room is `active` with no winner yet, both competitor slots
populated, and a problem assigned. -/
theorem ratings_untouched_on_forfeit :
    (∀ roomIn sid authUser,
      ((duelDisconnect roomIn sid authUser).2.filter isRatingEff) = []) ∧
    (∀ duelId roomIn sid uid uname ic il fetch now,
      (((joinDuel duelId roomIn sid uid uname ic il fetch now).effects).filter
        isRatingEff) = []) ∧
    (∀ roomIn sid uid v role,
      ((codeUpdate roomIn sid uid v role).2.filter isRatingEff) = [] ∧
      ((languageUpdate roomIn sid uid v role).2.filter isRatingEff) = []) ∧
    (∀ (elo : Int → Int → Rat → Int × Int) (db : String → Option Int) roomIn uid role t,
      ((problemSolved elo db roomIn uid role t).2.filter isRatingEff) ≠ [] →
      ∃ room, roomIn = some room ∧ room.status = .active ∧
        winnerFalsy room.winner = true ∧ room.competitor1.isSome ∧
        room.competitor2.isSome ∧ room.problem.isSome) := by
  refine ⟨?_, ?_, ?_, ?_⟩
  · intro roomIn sid authUser
    rcases roomIn with _ | room
    · rfl
    · simp only [duelDisconnect, forfeitStep]
      repeat' split
      all_goals rfl
  · intro duelId roomIn sid uid uname ic il fetch now
    simp only [joinDuel]
    repeat' split
    all_goals rfl
  · intro roomIn sid uid v role
    constructor <;>
    · rcases roomIn with _ | room
      · rfl
      · simp only [codeUpdate, languageUpdate]
        split <;> rfl
  · intro elo db roomIn uid role t hne
    rcases roomIn with _ | room
    · exact absurd rfl hne
    · by_cases hpre : solvedPre room uid role
      · refine ⟨room, rfl, hpre.1, ?_⟩
        by_cases hw : winnerFalsy ((room.setSlot role ((room.slot role).map fun c =>
            { c with solvedProblem := true, submissionTime := some t })).winner)
        · have hw' : winnerFalsy room.winner = true := by rwa [setSlot_winner] at hw
          simp only [problemSolved, hpre, if_true, hw] at hne
          have hiso := setSlot_map_isSome room role fun c =>
            { c with solvedProblem := true, submissionTime := some t }
          split at hne
          · rename_i c1 c2 prob heq1 heq2 heq3
            refine ⟨hw', ?_, ?_, ?_⟩
            · rw [← hiso.1]
              simp [heq1]
            · rw [← hiso.2]
              simp [heq2]
            · rw [← setSlot_problem room role ((room.slot role).map fun c =>
                { c with solvedProblem := true, submissionTime := some t })]
              simp [heq3]
          · exact absurd (by simp [isRatingEff]) hne
        · exfalso
          apply hne
          simp only [problemSolved, hpre, if_true, hw]
          simp [isRatingEff, hw]
      · exfalso
        apply hne
        simp [problemSolved, hpre]

/-- Witness for C10: the solve in `activeRoom` does produce rating
effects, and the theorem recovers the required room facts from that. -/
theorem ratings_untouched_on_forfeit_witness :
    ((problemSolved eloStub dbStub (some activeRoom) "u1" .competitor1 5).2.filter
      isRatingEff) ≠ [] ∧
    (∃ room, some activeRoom = some room ∧ room.status = .active ∧
      winnerFalsy room.winner = true ∧ room.competitor1.isSome ∧
      room.competitor2.isSome ∧ room.problem.isSome) := by
  refine ⟨by decide, ?_⟩
  exact ratings_untouched_on_forfeit.2.2.2 eloStub dbStub (some activeRoom) "u1"
    .competitor1 5 (by decide)

/-- If the assignment phase returned role `competitor1`, that slot now
holds the caller's user id. -/
lemma assignRole_comp1 (room : DuelRoom) (sid uid uname ic il : String)
    (h : (assignRole room sid uid uname ic il).2.1 = .comp .competitor1) :
    (assignRole room sid uid uname ic il).1.competitor1.map DuelCompetitor.userId =
      some uid := by
  unfold assignRole findExistingRole at h ⊢
  rcases hc1 : room.competitor1 with _ | c1 <;>
    rcases hc2 : room.competitor2 with _ | c2 <;>
    simp_all [DuelRoom.setSlot, DuelRoom.slot] <;>
    split_ifs at h ⊢ <;>
    simp_all [DuelRoom.setSlot, DuelRoom.slot]

/-- If the assignment phase returned role `competitor2`, slot 1 does not
hold the caller's user id but slot 2 now does. -/
lemma assignRole_comp2 (room : DuelRoom) (sid uid uname ic il : String)
    (h : (assignRole room sid uid uname ic il).2.1 = .comp .competitor2) :
    ((assignRole room sid uid uname ic il).1.competitor1.any fun c =>
      c.userId == uid) = false ∧
    (assignRole room sid uid uname ic il).1.competitor2.map DuelCompetitor.userId =
      some uid := by
  unfold assignRole findExistingRole at h ⊢
  rcases hc1 : room.competitor1 with _ | c1 <;>
    rcases hc2 : room.competitor2 with _ | c2 <;>
    simp_all [DuelRoom.setSlot, DuelRoom.slot] <;>
    split_ifs at h ⊢ <;>
    simp_all [DuelRoom.setSlot, DuelRoom.slot]

/-- If the assignment phase returned `spectator`, the slots are untouched,
both were already occupied, and neither holds the caller's user id. -/
lemma assignRole_spectator (room : DuelRoom) (sid uid uname ic il : String)
    (h : (assignRole room sid uid uname ic il).2.1 = .spectator) :
    (assignRole room sid uid uname ic il).1.competitor1 = room.competitor1 ∧
    (assignRole room sid uid uname ic il).1.competitor2 = room.competitor2 ∧
    (room.competitor1.any fun c => c.userId == uid) = false ∧
    (room.competitor2.any fun c => c.userId == uid) = false ∧
    room.competitor1.isSome ∧ room.competitor2.isSome := by
  unfold assignRole findExistingRole at h ⊢
  rcases hc1 : room.competitor1 with _ | c1 <;>
    rcases hc2 : room.competitor2 with _ | c2 <;>
    simp_all [DuelRoom.setSlot, DuelRoom.slot] <;>
    split_ifs at h ⊢ <;>
    simp_all [DuelRoom.setSlot, DuelRoom.slot]

/-- A slot whose stored user id is `uid` satisfies the rejoin scan. -/
lemma any_userId_of_map {o : Option DuelCompetitor} {uid : String}
    (h : o.map DuelCompetitor.userId = some uid) :
    (o.any fun c => c.userId == uid) = true := by
  cases o <;> simp_all

/-- The rejoin scan finds `competitor1` as soon as slot 1 matches. -/
lemma findExistingRole_c1 (room : DuelRoom) (uid : String)
    (h : (room.competitor1.any fun c => c.userId == uid) = true) :
    findExistingRole room uid = some .competitor1 := by
  simp [findExistingRole, h]

/-- The rejoin scan finds `competitor2` when slot 1 does not match and
slot 2 does. -/
lemma findExistingRole_c2 (room : DuelRoom) (uid : String)
    (h1 : (room.competitor1.any fun c => c.userId == uid) = false)
    (h2 : (room.competitor2.any fun c => c.userId == uid) = true) :
    findExistingRole room uid = some .competitor2 := by
  simp [findExistingRole, h1, h2]

/-- The rejoin scan finds nothing when neither slot matches. -/
lemma findExistingRole_none (room : DuelRoom) (uid : String)
    (h1 : (room.competitor1.any fun c => c.userId == uid) = false)
    (h2 : (room.competitor2.any fun c => c.userId == uid) = false) :
    findExistingRole room uid = none := by
  simp [findExistingRole, h1, h2]

/-- On a successful rejoin scan the assignment phase re-binds the found
slot's socket id and username and keeps everything else. -/
lemma assignRole_rejoin (room : DuelRoom) (sid uid uname ic il : String)
    (r : CompetitorRole) (h : findExistingRole room uid = some r) :
    assignRole room sid uid uname ic il =
      (room.setSlot r ((room.slot r).map fun c =>
        { c with socketId := sid, username := uname }), .comp r, false) := by
  simp [assignRole, h]

/-- With no rejoin match and both slots full, the caller becomes a
spectator. -/
lemma assignRole_to_spectator (room : DuelRoom) (sid uid uname ic il : String)
    (hf : findExistingRole room uid = none)
    (h1 : room.competitor1.isSome) (h2 : room.competitor2.isSome) :
    (assignRole room sid uid uname ic il).2.1 = .spectator := by
  rcases Option.isSome_iff_exists.mp h1 with ⟨c1, hc1⟩
  rcases Option.isSome_iff_exists.mp h2 with ⟨c2, hc2⟩
  simp [assignRole, hf, hc1, hc2]

/-- **C7.** Reconnect idempotence: two consecutive `joinDuel` calls with
the same user id (no intervening disconnect) are assigned the same role
both times; and when that role is a competitor slot, the rejoin re-binds
the slot's socket id (and username) to the new connection while keeping
its code, language and solve state. -/
theorem joinDuel_reconnect_idempotent (duelId : String) (roomIn : Option DuelRoom)
    (sid1 uid uname1 ic1 il1 : String) (f1 : FetchOutcome) (n1 : Int)
    (sid2 uname2 ic2 il2 : String) (f2 : FetchOutcome) (n2 : Int) :
    (joinDuel duelId (some (joinDuel duelId roomIn sid1 uid uname1 ic1 il1 f1 n1).room)
        sid2 uid uname2 ic2 il2 f2 n2).role =
      (joinDuel duelId roomIn sid1 uid uname1 ic1 il1 f1 n1).role ∧
    ∀ r : CompetitorRole,
      (joinDuel duelId roomIn sid1 uid uname1 ic1 il1 f1 n1).role = .comp r →
      (joinDuel duelId (some (joinDuel duelId roomIn sid1 uid uname1 ic1 il1 f1 n1).room)
          sid2 uid uname2 ic2 il2 f2 n2).room.slot r =
        ((joinDuel duelId roomIn sid1 uid uname1 ic1 il1 f1 n1).room.slot r).map
          fun c => { c with socketId := sid2, username := uname2 } := by
  have hrole1 := joinDuel_role duelId roomIn sid1 uid uname1 ic1 il1 f1 n1
  have hs1 := joinDuel_slots duelId roomIn sid1 uid uname1 ic1 il1 f1 n1
  have hrole2 := joinDuel_role duelId
    (some (joinDuel duelId roomIn sid1 uid uname1 ic1 il1 f1 n1).room)
    sid2 uid uname2 ic2 il2 f2 n2
  have hs2 := joinDuel_slots duelId
    (some (joinDuel duelId roomIn sid1 uid uname1 ic1 il1 f1 n1).room)
    sid2 uid uname2 ic2 il2 f2 n2
  simp only [Option.getD_some] at hrole2 hs2
  rcases hcase : (assignRole (roomIn.getD (freshRoom duelId)) sid1 uid uname1 ic1 il1).2.1
    with r1 | _
  · cases r1
    case competitor1 =>
      have hmap := assignRole_comp1 _ sid1 uid uname1 ic1 il1 hcase
      have hany : (((joinDuel duelId roomIn sid1 uid uname1 ic1 il1 f1 n1).room).competitor1.any
          fun c => c.userId == uid) = true := by
        rw [hs1.1]; exact any_userId_of_map hmap
      have hf2 := findExistingRole_c1 _ uid hany
      have hre := assignRole_rejoin _ sid2 uid uname2 ic2 il2 _ hf2
      constructor
      · rw [hrole2, hre, hrole1, hcase]
      · intro r hr
        rw [hrole1, hcase] at hr
        injection hr with h
        subst h
        have := hs2.1
        rw [hre] at this
        simp only [DuelRoom.slot]
        rw [this]
        simp [DuelRoom.setSlot, DuelRoom.slot]
    case competitor2 =>
      have hmap := assignRole_comp2 _ sid1 uid uname1 ic1 il1 hcase
      have hany1 : (((joinDuel duelId roomIn sid1 uid uname1 ic1 il1 f1 n1).room).competitor1.any
          fun c => c.userId == uid) = false := by
        rw [hs1.1]; exact hmap.1
      have hany2 : (((joinDuel duelId roomIn sid1 uid uname1 ic1 il1 f1 n1).room).competitor2.any
          fun c => c.userId == uid) = true := by
        rw [hs1.2]; exact any_userId_of_map hmap.2
      have hf2 := findExistingRole_c2 _ uid hany1 hany2
      have hre := assignRole_rejoin _ sid2 uid uname2 ic2 il2 _ hf2
      constructor
      · rw [hrole2, hre, hrole1, hcase]
      · intro r hr
        rw [hrole1, hcase] at hr
        injection hr with h
        subst h
        have := hs2.2
        rw [hre] at this
        simp only [DuelRoom.slot]
        rw [this]
        simp [DuelRoom.setSlot, DuelRoom.slot]
  · have hsp := assignRole_spectator _ sid1 uid uname1 ic1 il1 hcase
    have hany1 : (((joinDuel duelId roomIn sid1 uid uname1 ic1 il1 f1 n1).room).competitor1.any
        fun c => c.userId == uid) = false := by
      rw [hs1.1, hsp.1]; exact hsp.2.2.1
    have hany2 : (((joinDuel duelId roomIn sid1 uid uname1 ic1 il1 f1 n1).room).competitor2.any
        fun c => c.userId == uid) = false := by
      rw [hs1.2, hsp.2.1]; exact hsp.2.2.2.1
    have hf2 := findExistingRole_none _ uid hany1 hany2
    have h1some : ((joinDuel duelId roomIn sid1 uid uname1 ic1 il1 f1 n1).room).competitor1.isSome := by
      rw [hs1.1, hsp.1]; exact hsp.2.2.2.2.1
    have h2some : ((joinDuel duelId roomIn sid1 uid uname1 ic1 il1 f1 n1).room).competitor2.isSome := by
      rw [hs1.2, hsp.2.1]; exact hsp.2.2.2.2.2
    constructor
    · rw [hrole2, assignRole_to_spectator _ sid2 uid uname2 ic2 il2 hf2 h1some h2some,
        hrole1, hcase]
    · intro r hr
      rw [hrole1, hcase] at hr
      cases hr

/-- Witness for C7: `"u1"` rejoining `waitingRoom` keeps role
`competitor1` and gets the slot re-bound to the new socket. -/
theorem joinDuel_reconnect_idempotent_witness :
    (joinDuel "d1" (some (joinDuel "d1" (some waitingRoom) "s1x" "u1" "Alice" "//a"
        "cpp" FetchOutcome.threw 10).room) "s1y" "u1" "A2" "//z" "py"
        FetchOutcome.threw 20).role =
      (joinDuel "d1" (some waitingRoom) "s1x" "u1" "Alice" "//a" "cpp"
        FetchOutcome.threw 10).role ∧
    (joinDuel "d1" (some waitingRoom) "s1x" "u1" "Alice" "//a" "cpp"
        FetchOutcome.threw 10).role = .comp .competitor1 ∧
    (joinDuel "d1" (some (joinDuel "d1" (some waitingRoom) "s1x" "u1" "Alice" "//a"
        "cpp" FetchOutcome.threw 10).room) "s1y" "u1" "A2" "//z" "py"
        FetchOutcome.threw 20).room.slot .competitor1 =
      ((joinDuel "d1" (some waitingRoom) "s1x" "u1" "Alice" "//a" "cpp"
        FetchOutcome.threw 10).room.slot .competitor1).map
        fun c => { c with socketId := "s1y", username := "A2" } := by
  have h := joinDuel_reconnect_idempotent "d1" (some waitingRoom) "s1x" "u1" "Alice"
    "//a" "cpp" FetchOutcome.threw 10 "s1y" "A2" "//z" "py" FetchOutcome.threw 20
  exact ⟨h.1, by decide, h.2 .competitor1 (by decide)⟩

/-- The pop-pop loop produces exactly ⌊n/2⌋ pairs. -/
lemma popPairsRev_length {α : Type} : ∀ l : List α,
    ((popPairsRev l).1).length = l.length / 2
  | [] => by simp [popPairsRev]
  | [_] => by simp [popPairsRev]
  | a :: b :: rest => by
    have ih := popPairsRev_length rest
    simp [popPairsRev, ih]
    omega

/-- The pop-pop loop leaves a participant over exactly when n is odd. -/
lemma popPairsRev_leftover {α : Type} : ∀ l : List α,
    ((popPairsRev l).2 = none ↔ l.length % 2 = 0)
  | [] => by simp [popPairsRev]
  | [_] => by simp [popPairsRev]
  | a :: b :: rest => by
    have ih := popPairsRev_leftover rest
    simp [popPairsRev, ih]
    omega

/-- Pair members come from the input list. -/
lemma popPairsRev_mem {α : Type} : ∀ l : List α, ∀ a b : α,
    (a, b) ∈ (popPairsRev l).1 → a ∈ l ∧ b ∈ l
  | [] => by simp [popPairsRev]
  | [_] => by simp [popPairsRev]
  | x :: y :: rest => by
    intro a b h
    simp only [popPairsRev, List.mem_cons, Prod.mk.injEq] at h
    rcases h with ⟨ha, hb⟩ | h
    · subst ha; subst hb; simp
    · have := popPairsRev_mem rest a b h
      simp [this.1, this.2]

/-- The leftover participant comes from the input list. -/
lemma popPairsRev_leftover_mem {α : Type} : ∀ l : List α, ∀ u : α,
    (popPairsRev l).2 = some u → u ∈ l
  | [] => by simp [popPairsRev]
  | [x] => by intro u h; simp [popPairsRev] at h; simp [h]
  | x :: y :: rest => by
    intro u h
    simp only [popPairsRev] at h
    have := popPairsRev_leftover_mem rest u h
    simp [this]

/-- The per-pair invitation/announcement effects contain no bye
notifications. -/
lemma pairEffs_no_byes (pairs : List (HallParticipant × HallParticipant))
    (connected : String → Bool) (mkDuelId : HallParticipant → HallParticipant → String)
    (pst : String) (cp : List String) :
    ((pairs.flatMap fun pr =>
      (if connected pr.1.socketId then
        [(Audience.toSocket pr.1.socketId,
          Eff.duelInvitation (mkDuelId pr.1 pr.2) pr.2.username pst cp)]
       else []) ++
      (if connected pr.2.socketId then
        [(Audience.toSocket pr.2.socketId,
          Eff.duelInvitation (mkDuelId pr.1 pr.2) pr.1.username pst cp)]
       else []) ++
      [(Audience.toRoom, Eff.newTournamentDuel (mkDuelId pr.1 pr.2)
          pr.1.userId pr.1.username pr.2.userId pr.2.username)]).filter isByeEff) = [] := by
  rw [List.filter_eq_nil_iff]
  intro e he
  rw [List.mem_flatMap] at he
  obtain ⟨pr, _, he⟩ := he
  rw [List.mem_append, List.mem_append] at he
  rcases he with (he | he) | he
  · split at he <;> simp_all [isByeEff]
  · split at he <;> simp_all [isByeEff]
  · simp_all [isByeEff]

/-- **C8.** Round pairing counts: a `startTournamentRound` that passes its
authorization and status checks creates, for n live hall participants,
exactly ⌊n/2⌋ new duel rooms, sends a duel invitation to both members of
every pair, and sends exactly n mod 2 bye notifications — whatever order
the shuffle produced. -/
theorem startTournamentRound_pairing_counts
    (tid : String) (hall : TournamentHall) (db : TournamentDb) (auth : AuthUser)
    (shuffled : List HallParticipant) (connected : String → Bool)
    (mkDuelId : HallParticipant → HallParticipant → String)
    (horg : db.organizerId = auth.userId)
    (hstatus : db.status = .PENDING ∨ db.status = .ACTIVE)
    (hsize : ¬(hall.participants.length < 2 ∧ db.pairingSystem = .RANDOM))
    (hperm : shuffled.Perm (hall.participants.map Prod.snd))
    (hconn : ∀ p ∈ shuffled, connected p.socketId = true) :
    (startTournamentRound tid (some hall) (some db) (some auth) shuffled connected
      mkDuelId).1.length = hall.participants.length / 2 ∧
    ((startTournamentRound tid (some hall) (some db) (some auth) shuffled connected
      mkDuelId).2.filter isByeEff).length = hall.participants.length % 2 ∧
    ∀ pr ∈ (popPairsRev shuffled.reverse).1,
      (Audience.toSocket pr.1.socketId, Eff.duelInvitation (mkDuelId pr.1 pr.2)
        pr.2.username db.problemSetType db.curatedProblemIds) ∈
        (startTournamentRound tid (some hall) (some db) (some auth) shuffled connected
          mkDuelId).2 ∧
      (Audience.toSocket pr.2.socketId, Eff.duelInvitation (mkDuelId pr.1 pr.2)
        pr.1.username db.problemSetType db.curatedProblemIds) ∈
        (startTournamentRound tid (some hall) (some db) (some auth) shuffled connected
          mkDuelId).2 := by
  have hlen : shuffled.length = hall.participants.length := by
    rw [hperm.length_eq, List.length_map]
  have hg1 : ¬(db.organizerId ≠ auth.userId) := by simp [horg]
  have hg2 : ¬(db.status ≠ TournamentStatus.PENDING ∧
      db.status ≠ TournamentStatus.ACTIVE) := by
    rcases hstatus with h | h <;> simp [h]
  have hpe := pairEffs_no_byes (popPairsRev shuffled.reverse).1 connected mkDuelId
    db.problemSetType db.curatedProblemIds
  refine ⟨?_, ?_, ?_⟩
  · simp only [startTournamentRound, if_neg hg1, if_neg hg2, if_neg hsize]
    simp [popPairsRev_length, hlen]
  · rcases hleft : (popPairsRev shuffled.reverse).2 with _ | u
    · have heven : shuffled.reverse.length % 2 = 0 := (popPairsRev_leftover _).mp hleft
      rw [List.length_reverse, hlen] at heven
      simp only [startTournamentRound, if_neg hg1, if_neg hg2, if_neg hsize, hleft]
      rw [List.filter_append, List.filter_append, List.filter_append, hpe]
      simp [isByeEff, heven]
    · have hodd : ¬ shuffled.reverse.length % 2 = 0 := by
        intro h0
        rw [← popPairsRev_leftover] at h0
        rw [hleft] at h0
        cases h0
      rw [List.length_reverse, hlen] at hodd
      have hu : connected u.socketId = true :=
        hconn u (List.mem_reverse.mp (popPairsRev_leftover_mem _ u hleft))
      simp only [startTournamentRound, if_neg hg1, if_neg hg2, if_neg hsize, hleft, hu,
        if_true]
      rw [List.filter_append, List.filter_append, List.filter_append, hpe]
      simp [isByeEff]
      omega
  · intro pr hpr
    have hpr' : (pr.1, pr.2) ∈ (popPairsRev shuffled.reverse).1 := by simpa using hpr
    have hm := popPairsRev_mem shuffled.reverse pr.1 pr.2 hpr'
    have hc1 : connected pr.1.socketId = true := hconn _ (List.mem_reverse.mp hm.1)
    have hc2 : connected pr.2.socketId = true := hconn _ (List.mem_reverse.mp hm.2)
    constructor <;>
    · simp only [startTournamentRound, if_neg hg1, if_neg hg2, if_neg hsize]
      refine List.mem_append.mpr (Or.inl (List.mem_append.mpr (Or.inr ?_)))
      exact List.mem_flatMap.mpr ⟨pr, hpr, by simp [hc1, hc2]⟩

/-- Hall participant A (for the C8 witness). -/
def partA : HallParticipant := { socketId := "sa", userId := "ua", username := "A", rating := 1200 }

/-- Hall participant B (for the C8 witness). -/
def partB : HallParticipant := { socketId := "sb", userId := "ub", username := "B", rating := 1200 }

/-- Hall participant C (for the C8 witness). -/
def partC : HallParticipant := { socketId := "sc", userId := "uc", username := "C", rating := 1200 }

/-- A three-participant hall (for the C8 witness). -/
def hall3 : TournamentHall :=
  { tournamentId := "t1", organizerId := "org",
    participants := [("ua", partA), ("ub", partB), ("uc", partC)] }

/-- The persisted tournament record backing `hall3`. -/
def db8 : TournamentDb :=
  { organizerId := "org", status := .PENDING, pairingSystem := .RANDOM,
    problemSetType := "RANDOM_LEETCODE", curatedProblemIds := [] }

/-- The organizer's auth record (for the C8 witness). -/
def auth8 : AuthUser := { userId := "org", username := "Org", rating := 1500 }

/-- An identity shuffle of `hall3`'s participants. -/
def shuffled3 : List HallParticipant := [partA, partB, partC]

/-- Witness for C8: with the three participants of `hall3` the round
yields exactly one duel room and exactly one bye notification. -/
theorem startTournamentRound_pairing_counts_witness :
    db8.organizerId = auth8.userId ∧
    shuffled3.Perm (hall3.participants.map Prod.snd) ∧
    (startTournamentRound "t1" (some hall3) (some db8) (some auth8) shuffled3
      (fun _ => true) (fun p q => p.userId ++ "v" ++ q.userId)).1.length = 1 ∧
    ((startTournamentRound "t1" (some hall3) (some db8) (some auth8) shuffled3
      (fun _ => true) (fun p q => p.userId ++ "v" ++ q.userId)).2.filter
        isByeEff).length = 1 := by
  have h := startTournamentRound_pairing_counts "t1" hall3 db8 auth8 shuffled3
    (fun _ => true) (fun p q => p.userId ++ "v" ++ q.userId) rfl (Or.inl rfl)
    (by decide) (List.Perm.refl _) (fun p _ => rfl)
  exact ⟨rfl, List.Perm.refl _, h.1, h.2.1⟩

/-!
## Invariance of `roomInv`

The claims above assume `roomInv` on the input room where they implicitly
quantify over reachable states; these lemmas justify that assumption:
`roomInv` holds of a fresh room and is preserved by every handler.
-/

/-- A fresh room satisfies the invariant. -/
lemma roomInv_freshRoom (duelId : String) : roomInv (freshRoom duelId) = true := rfl

/-- `codeUpdate` preserves the invariant. -/
lemma roomInv_codeUpdate (room : DuelRoom) (sid uid v : String) (role : CompetitorRole)
    (h : roomInv room = true) :
    ∀ r', (codeUpdate (some room) sid uid v role).1 = some r' → roomInv r' = true := by
  intro r' hr
  simp only [codeUpdate] at hr
  split at hr
  · rw [Option.some.injEq] at hr
    subst hr
    revert h
    cases role <;> rcases hc1 : room.competitor1 with _ | c1 <;>
      rcases hc2 : room.competitor2 with _ | c2 <;>
      simp_all [roomInv, DuelRoom.setSlot, DuelRoom.slot]
  · rw [Option.some.injEq] at hr
    subst hr
    exact h

/-- `languageUpdate` preserves the invariant. -/
lemma roomInv_languageUpdate (room : DuelRoom) (sid uid v : String) (role : CompetitorRole)
    (h : roomInv room = true) :
    ∀ r', (languageUpdate (some room) sid uid v role).1 = some r' → roomInv r' = true := by
  intro r' hr
  simp only [languageUpdate] at hr
  split at hr
  · rw [Option.some.injEq] at hr
    subst hr
    revert h
    cases role <;> rcases hc1 : room.competitor1 with _ | c1 <;>
      rcases hc2 : room.competitor2 with _ | c2 <;>
      simp_all [roomInv, DuelRoom.setSlot, DuelRoom.slot]
  · rw [Option.some.injEq] at hr
    subst hr
    exact h

/-- `problemSolved` preserves the invariant. -/
lemma roomInv_problemSolved (elo : Int → Int → Rat → Int × Int)
    (db : String → Option Int) (room : DuelRoom) (uid : String) (role : CompetitorRole)
    (t : Int) (h : roomInv room = true) :
    ∀ r', (problemSolved elo db (some room) uid role t).1 = some r' →
      roomInv r' = true := by
  intro r' hr
  by_cases hpre : solvedPre room uid role
  · simp only [problemSolved, hpre, if_true] at hr
    by_cases hw : winnerFalsy ((room.setSlot role ((room.slot role).map fun c =>
        { c with solvedProblem := true, submissionTime := some t })).winner)
    · simp only [hw, if_true] at hr
      have hgoal : ∀ rx, rx = { room.setSlot role ((room.slot role).map fun c =>
            { c with solvedProblem := true, submissionTime := some t }) with
            winner := some uid, status := DuelStatus.finished } → roomInv rx = true := by
        intro rx hx
        subst hx
        revert h
        cases role <;> rcases hc1 : room.competitor1 with _ | c1 <;>
          rcases hc2 : room.competitor2 with _ | c2 <;>
          simp_all [roomInv, DuelRoom.setSlot, DuelRoom.slot]
      split at hr
      · split at hr
        · rw [Option.some.injEq] at hr
          exact hgoal r' hr.symm
        · rw [Option.some.injEq] at hr
          exact hgoal r' hr.symm
      · rw [Option.some.injEq] at hr
        exact hgoal r' hr.symm
    · simp only [hw, Bool.false_eq_true, if_false, Option.some.injEq] at hr
      subst hr
      revert h
      cases role <;> rcases hc1 : room.competitor1 with _ | c1 <;>
        rcases hc2 : room.competitor2 with _ | c2 <;>
        simp_all [roomInv, DuelRoom.setSlot, DuelRoom.slot]
  · simp only [problemSolved, hpre, if_false, Option.some.injEq] at hr
    subst hr
    exact h

/-- Role assignment preserves the invariant when the caller's user id is
non-empty. -/
lemma roomInv_assignRole (room : DuelRoom) (sid uid uname ic il : String)
    (huid : uid ≠ "") (h : roomInv room = true) :
    roomInv (assignRole room sid uid uname ic il).1 = true := by
  unfold assignRole findExistingRole
  rcases hc1 : room.competitor1 with _ | c1 <;>
    rcases hc2 : room.competitor2 with _ | c2 <;>
    split_ifs <;>
    simp_all [roomInv, DuelRoom.setSlot, DuelRoom.slot]

/-- Activating a waiting room (with or without a fetched problem)
preserves the invariant. -/
lemma roomInv_set_active (room : DuelRoom) (hinv : roomInv room = true)
    (hw : room.status = .waiting) (now : Int) :
    roomInv { room with status := .active, startTime := some now } = true ∧
    ∀ p, roomInv
      { room with status := .active, startTime := some now, problem := some p } = true := by
  revert hinv
  simp [roomInv, hw]
  intro h1 _ h3 h4
  simp [h1, h3, h4]

/-- `joinDuel` preserves the invariant when the caller's user id is
non-empty (`joinDuel` is only reached with a truthy user id,
index.ts lines 1009-1024). -/
lemma roomInv_joinDuel (duelId : String) (roomIn : Option DuelRoom)
    (sid uid uname ic il : String) (fetch : FetchOutcome) (now : Int)
    (huid : uid ≠ "") (h : roomInv (roomIn.getD (freshRoom duelId)) = true) :
    roomInv (joinDuel duelId roomIn sid uid uname ic il fetch now).room = true := by
  have hinv1 := roomInv_assignRole (roomIn.getD (freshRoom duelId)) sid uid uname ic il
    huid h
  simp only [joinDuel]
  split
  · rename_i hcond
    simp only [Bool.and_eq_true, beq_iff_eq] at hcond
    have hwait : (assignRole (roomIn.getD (freshRoom duelId)) sid uid uname ic il).1.status =
        .waiting := hcond.1.2
    rcases fetch with p | _ | _
    · exact (roomInv_set_active _ hinv1 hwait now).2 p
    · exact (roomInv_set_active _ hinv1 hwait now).1
    · exact (roomInv_set_active _ hinv1 hwait now).1
  · split
    · exact hinv1
    · exact hinv1

/-- The invariant ignores the spectator set. -/
lemma roomInv_spectators (room : DuelRoom) (s : List String) :
    roomInv { room with spectators := s } = roomInv room := rfl

/-- The duel part of the disconnect handler preserves the invariant (when
it does not delete the room). -/
lemma roomInv_duelDisconnect (room : DuelRoom) (sid : String)
    (authUser : Option AuthUser) (h : roomInv room = true) :
    ∀ r', (duelDisconnect (some room) sid authUser).1 = some r' →
      roomInv r' = true := by
  intro r' hr
  simp only [duelDisconnect, forfeitStep] at hr
  have hstep : ∀ room1 : DuelRoom, roomInv room1 = true →
      ∀ room2 : DuelRoom,
        (if sid ∈ room1.spectators then
          { room1 with spectators := room1.spectators.erase sid } else room1) = room2 →
        roomInv room2 = true := by
    intro room1 h1 room2 h2
    split at h2 <;> rw [← h2]
    · rw [roomInv_spectators]; exact h1
    · exact h1
  rcases hfm : firstMatchRole room sid with _ | role <;> simp only [hfm] at hr
  · -- no competitor slot matched
    split at hr <;> rename_i hspec
    · split at hr
      · cases hr
      · rw [Option.some.injEq] at hr
        rw [← hr, roomInv_spectators]
        exact h
    · split at hr
      · cases hr
      · rw [Option.some.injEq] at hr
        rw [← hr]
        exact h
  · -- a competitor slot matched: the slot is cleared, and if the room was
    -- active the forfeit transition runs
    rcases hslot : room.slot role with _ | c <;> simp only [hslot] at hr
    · split at hr <;> rename_i hspec
      · split at hr
        · cases hr
        · rw [Option.some.injEq] at hr
          rw [← hr, roomInv_spectators]
          exact h
      · split at hr
        · cases hr
        · rw [Option.some.injEq] at hr
          rw [← hr]
          exact h
    · have hcleared : roomInv (room.setSlot role none) = true := by
        revert h
        cases role <;> simp_all [roomInv, DuelRoom.setSlot, DuelRoom.slot]
      have hforf : ∀ w, roomInv
          { room.setSlot role none with status := .finished, winner := w } = true := by
        intro w
        revert hcleared
        cases role <;> simp [roomInv, DuelRoom.setSlot]
      split at hr <;> rename_i hact
      · -- active: forfeit record
        split at hr <;> rename_i hspec
        · split at hr
          · cases hr
          · rw [Option.some.injEq] at hr
            rw [← hr, roomInv_spectators]
            exact hforf _
        · split at hr
          · cases hr
          · rw [Option.some.injEq] at hr
            rw [← hr]
            exact hforf _
      · -- not active: just the cleared slot
        split at hr <;> rename_i hspec
        · split at hr
          · cases hr
          · rw [Option.some.injEq] at hr
            rw [← hr, roomInv_spectators]
            exact hcleared
        · split at hr
          · cases hr
          · rw [Option.some.injEq] at hr
            rw [← hr]
            exact hcleared
